import Mathlib

/-!
Verification of the thread scheduling core of the pintos-alarm-clock repository
(`src/threads/thread.c`, `src/threads/thread.h`).

The embedding is shallow and sequential: each C function that the claims touch
becomes a Lean function on an explicit scheduler state.  Pointers to thread
records become `Thread` values identified by their `tid`; `NULL` thread
arguments become `Option Thread`.  Fatal `ASSERT`s become `Option` results
(`none` = the assertion fired and the kernel halted).  External collaborators
(the timer's `timer_ticks`, the page allocator, the interrupt level) are passed
in as explicit arguments, following the contracts in the spec's section 6.
The Pintos doubly linked list library (`lib/kernel/list.c`) is not under
`src/`; its primitives (`list_push_back`, `list_push_front`, `list_pop_front`,
`list_front`, `list_empty`, `list_size`, `list_insert_ordered`) are modelled
from the spec as the evident operations on Lean `List`s, with
`list_insert_ordered` inserting the new element before the first strictly
greater element, as its ordering callback `wakeup_time_ticks_less_than`
dictates.
-/

set_option maxRecDepth 4000

namespace PintosThread

/-- thread.c: `#define THREAD_MAGIC 0xcd6abf4b`. -/
def THREAD_MAGIC : Nat := 0xcd6abf4b

/-- thread.c: `#define THREAD_NOT_SLEEPING (-1)`. -/
def THREAD_NOT_SLEEPING : Int := -1

/-- thread.c: `#define SLEEPING_QUEUE_EMPTY (-1)`. -/
def SLEEPING_QUEUE_EMPTY : Int := -1

/-- thread.h: `#define TID_ERROR ((tid_t) -1)`. -/
def TID_ERROR : Int := -1

/-- thread.h: `#define PRI_MIN 0`. -/
def PRI_MIN : Int := 0

/-- thread.h: `#define PRI_MAX 63`. -/
def PRI_MAX : Int := 63

/-- thread.c: `#define TIME_SLICE 4`. -/
def TIME_SLICE : Nat := 4

/-- thread.h: `enum thread_status`. -/
inductive ThreadStatus where
  | RUNNING
  | READY
  | BLOCKED
  | DYING
deriving DecidableEq

/-- thread.h: `struct thread`, restricted to the fields the scheduler core
reads or writes.  `hasPagedir` models `pagedir != NULL` under `USERPROG`;
the stack pointer, list links and stack page layout are not observable in
this embedding. -/
structure Thread where
  tid : Int
  status : ThreadStatus
  name : String
  priority : Int
  wakeup_time_ticks : Int
  magic : Nat
  hasPagedir : Bool
deriving DecidableEq

/-- The file-static scheduler state of thread.c: the ready queue, the sleeping
queue and its cached minimum, the all-threads registry (modelled by the tids it
holds), the tid counter of `allocate_tid`, the identities of the idle and
initial threads, and the statistics counters.  `thread_ticks` is the unsigned
per-slice counter. -/
structure KernelState where
  ready_list : List Thread
  sleeping_list : List Thread
  sleeping_list_min_wakeup_time_ticks : Int
  all_list : List Int
  next_tid : Int
  idle_tid : Int
  initial_tid : Int
  thread_ticks : Nat
  idle_ticks : Int
  kernel_ticks : Int
  user_ticks : Int
deriving DecidableEq

/-- thread.c `wakeup_time_ticks_less_than`: the `list_less_func` used by the
ordered insertion; true iff A's wake tick is strictly below B's. -/
def wakeup_time_ticks_less_than (a b : Thread) : Bool :=
  decide (a.wakeup_time_ticks < b.wakeup_time_ticks)

/-- Modelled from the spec: Pintos `lib/kernel/list.c` `list_insert_ordered`
is not under `src/`.  Per the spec's "Insert into `sleeping` in ascending
order", the element is inserted before the first list element for which the
comparison callback returns true, i.e. before the first strictly greater
element (so it lands after any element with an equal wake tick). -/
def list_insert_ordered : List Thread → Thread → List Thread
  | [], t => [t]
  | x :: xs, t =>
    if wakeup_time_ticks_less_than t x then t :: x :: xs
    else x :: list_insert_ordered xs t

/-- thread.c `is_thread`: `t != NULL && t->magic == THREAD_MAGIC`.  A
non-null pointer is implicit in holding a `Thread` value. -/
def is_thread (t : Thread) : Bool :=
  decide (t.magic = THREAD_MAGIC)

/-- thread.c `thread_current`: `running_thread()` plus the three sanity
assertions — `is_thread (t)`, `t->status == THREAD_RUNNING`, and
`t->wakeup_time_ticks == THREAD_NOT_SLEEPING`.  The running thread record is
an argument (the C code recovers it from the stack pointer); `none` means an
assertion fired. -/
def thread_current (t : Thread) : Option Thread :=
  if is_thread t ∧ t.status = ThreadStatus.RUNNING
      ∧ t.wakeup_time_ticks = THREAD_NOT_SLEEPING then
    some t
  else
    none

/-- thread.c `thread_tid`: `thread_current ()->tid`. -/
def thread_tid (t : Thread) : Option Int :=
  (thread_current t).map Thread.tid

/-- thread.c `thread_name`: `thread_current ()->name`. -/
def thread_name (t : Thread) : Option String :=
  (thread_current t).map Thread.name

/-- thread.c `thread_get_priority`: `thread_current ()->priority`. -/
def thread_get_priority (t : Thread) : Option Int :=
  (thread_current t).map Thread.priority

/-- thread.c `thread_set_priority`: `thread_current ()->priority =
new_priority`, returning the updated running thread. -/
def thread_set_priority (t : Thread) (new_priority : Int) : Option Thread :=
  (thread_current t).map (fun c => { c with priority := new_priority })

/-- The ready-queue effect of thread.c `thread_unblock`: assert
`is_thread (t)` and `t->status == THREAD_BLOCKED`, then push T on the back of
`ready_list` and set its status to `THREAD_READY` (the queued record and the
argument are the same object, so the queue holds the READY version). -/
def thread_unblock_ready (t : Thread) (ready : List Thread) :
    Option (List Thread) :=
  if is_thread t then
    if t.status = ThreadStatus.BLOCKED then
      some (ready ++ [{ t with status := ThreadStatus.READY }])
    else none
  else none

/-- thread.c `thread_unblock` on the scheduler state.  The interrupt level is
disabled around the body and restored before returning, so its net effect on
the level is nil; no other state component is touched. -/
def thread_unblock (t : Thread) (s : KernelState) : Option KernelState :=
  match thread_unblock_ready t s.ready_list with
  | none => none
  | some r => some { s with ready_list := r }

/-- thread.c `sleeping_queue_insert_ordered`, acting on the sleeping queue and
its cached minimum.  Asserts (in source order): interrupts are off and the
caller is not in interrupt context (both guaranteed by the embedding's
sequential, interrupts-off calling context and not modelled), `t != NULL`,
`t->status == THREAD_BLOCKED`, `t->wakeup_time_ticks > 0`, and the cache
invariant `min != SLEEPING_QUEUE_EMPTY || list_empty (sleeping)`.  Then: if
the queue is empty or T's wake tick is at most the cached minimum, push front
and update the cache; otherwise insert in ascending order, cache unchanged. -/
def sleeping_queue_insert_ordered (t : Thread) (sleeping : List Thread)
    (minw : Int) : Option (List Thread × Int) :=
  if t.status = ThreadStatus.BLOCKED ∧ t.wakeup_time_ticks > 0 then
    if minw ≠ SLEEPING_QUEUE_EMPTY ∨ sleeping = [] then
      if minw = SLEEPING_QUEUE_EMPTY ∨ t.wakeup_time_ticks ≤ minw then
        some (t :: sleeping, t.wakeup_time_ticks)
      else
        some (list_insert_ordered sleeping t, minw)
    else none
  else none

/-- thread.c `thread_sleep`.  `now` is the value `timer_ticks()` returns at
the early-return check.  In source order: assert `wakeup_time_ticks >= 0`;
return early if the deadline has already passed; `thread_current()` with its
assertions; assert not in interrupt context; disable interrupts; unless the
caller is the idle thread, set it BLOCKED with the given wake tick and insert
it into the sleeping queue, then `schedule()`.  The result is the caller's
record and the scheduler state at the point control passes to the dispatcher
(the context switch itself is outside the embedding); the interrupt level is
restored on return. -/
def thread_sleep (wakeup_time_ticks now : Int) (cur : Thread)
    (s : KernelState) : Option (Thread × KernelState) :=
  if 0 ≤ wakeup_time_ticks then
    if wakeup_time_ticks < now then
      some (cur, s)
    else
      match thread_current cur with
      | none => none
      | some c =>
        if c.tid = s.idle_tid then
          some (c, s)
        else
          let c2 := { c with status := ThreadStatus.BLOCKED,
                             wakeup_time_ticks := wakeup_time_ticks }
          match sleeping_queue_insert_ordered c2 s.sleeping_list
              s.sleeping_list_min_wakeup_time_ticks with
          | none => none
          | some (sl, mw) =>
            some (c2, { s with sleeping_list := sl,
                               sleeping_list_min_wakeup_time_ticks := mw })
  else none

/-- The while loop of thread.c `thread_wakeup`: peek the front of the sleeping
queue; assert it is non-null, BLOCKED, with positive wake tick; if its wake
tick is beyond `now`, store it in the cache and break; otherwise pop it, reset
its wake tick to `THREAD_NOT_SLEEPING`, and `thread_unblock` it (which asserts
`is_thread` and BLOCKED again and appends it to the ready queue).  Returns the
remaining sleeping queue, the cache value, and the ready queue. -/
def wakeup_loop (now : Int) :
    List Thread → Int → List Thread → Option (List Thread × Int × List Thread)
  | [], minw, rd => some ([], minw, rd)
  | ft :: rest, minw, rd =>
    if ft.status = ThreadStatus.BLOCKED ∧ ft.wakeup_time_ticks > 0 then
      if now < ft.wakeup_time_ticks then
        some (ft :: rest, ft.wakeup_time_ticks, rd)
      else
        match thread_unblock_ready
            { ft with wakeup_time_ticks := THREAD_NOT_SLEEPING } rd with
        | none => none
        | some rd2 => wakeup_loop now rest minw rd2
    else none

/-- thread.c `thread_wakeup`.  `now` is the single `timer_ticks()` read at the
top.  Asserts the cache invariant; takes the fast path (no state change, no
interrupt-level change) when the queue is empty or nothing is due; otherwise
disables interrupts, drains due sleepers via the loop, sets the cache to
`SLEEPING_QUEUE_EMPTY` if the loop emptied the queue, and restores the
interrupt level. -/
def thread_wakeup (now : Int) (s : KernelState) : Option KernelState :=
  if s.sleeping_list_min_wakeup_time_ticks ≠ SLEEPING_QUEUE_EMPTY
      ∨ s.sleeping_list = [] then
    if s.sleeping_list_min_wakeup_time_ticks = SLEEPING_QUEUE_EMPTY
        ∨ now < s.sleeping_list_min_wakeup_time_ticks then
      some s
    else
      match wakeup_loop now s.sleeping_list
          s.sleeping_list_min_wakeup_time_ticks s.ready_list with
      | none => none
      | some (sl, minw, rd) =>
        let minw2 := if sl = [] then SLEEPING_QUEUE_EMPTY else minw
        some { s with sleeping_list := sl,
                      ready_list := rd,
                      sleeping_list_min_wakeup_time_ticks := minw2 }
  else none

/-- thread.c `threads_sleeping`.  `level` is the interrupt level at entry
(`true` = INTR_ON); the second component of the result is the interrupt level
after the call returns.  The function disables interrupts, and on the
empty-queue fast path returns 0 WITHOUT restoring the entry level (the
`intr_set_level` call is only on the path that reads the list size); this is
translated as-is from the source. -/
def threads_sleeping (s : KernelState) (level : Bool) : Nat × Bool :=
  if s.sleeping_list_min_wakeup_time_ticks = SLEEPING_QUEUE_EMPTY then
    (0, false)
  else
    (s.sleeping_list.length, level)

/-- thread.c `thread_tick`.  Runs `thread_current()` with its assertions, then
bumps exactly one of the three statistics counters — `idle_ticks` when the
current thread is the idle thread, `user_ticks` when it has a user page
directory, `kernel_ticks` otherwise — then increments the unsigned per-slice
counter (32-bit wraparound made explicit) and requests a yield at interrupt
return iff the incremented counter has reached `TIME_SLICE`.  The boolean
result is the `intr_yield_on_return` request; no queue or scheduling state is
touched. -/
def thread_tick (cur : Thread) (s : KernelState) :
    Option (KernelState × Bool) :=
  match thread_current cur with
  | none => none
  | some t =>
    let s1 :=
      if t.tid = s.idle_tid then { s with idle_ticks := s.idle_ticks + 1 }
      else if t.hasPagedir then { s with user_ticks := s.user_ticks + 1 }
      else { s with kernel_ticks := s.kernel_ticks + 1 }
    let newTicks := (s.thread_ticks + 1) % 2 ^ 32
    some ({ s1 with thread_ticks := newTicks },
          decide (TIME_SLICE ≤ newTicks))

/-- thread.c `thread_yield`.  Runs `thread_current()` with its assertions,
asserts not in interrupt context, disables interrupts, pushes the caller on
the back of the ready queue unless it is the idle thread, sets its status to
READY (the queued record is the same object, hence READY in the queue), and
calls `schedule()`.  The result is the caller's record and the state at the
point control passes to the dispatcher; the interrupt level is restored on
return. -/
def thread_yield (cur : Thread) (s : KernelState) :
    Option (Thread × KernelState) :=
  match thread_current cur with
  | none => none
  | some c =>
    let c2 := { c with status := ThreadStatus.READY }
    if c.tid = s.idle_tid then
      some (c2, s)
    else
      some (c2, { s with ready_list := s.ready_list ++ [c2] })

/-- thread.c `next_thread_to_run`: pop the front of the ready queue, or
return the idle thread (represented by `none`, since the idle thread's record
lives outside the queues) when the queue is empty. -/
def next_thread_to_run (s : KernelState) : Option Thread × KernelState :=
  match s.ready_list with
  | [] => (none, s)
  | t :: rest => (some t, { s with ready_list := rest })

/-- The reaping condition of thread.c `thread_schedule_tail`:
`prev != NULL && prev->status == THREAD_DYING && prev != initial_thread`
(thread identity by tid). -/
def schedule_tail_frees (initial_tid : Int) (prev : Option Thread) : Bool :=
  match prev with
  | none => false
  | some p =>
    decide (p.status = ThreadStatus.DYING) && decide (p.tid ≠ initial_tid)

/-- thread.c `thread_schedule_tail`.  With interrupts off (asserted; the
embedding's dispatch context), marks the new current thread RUNNING, resets
the per-slice counter, activates the address space (no observable effect
here), and frees PREV's page — after asserting `prev != cur` — exactly when
the reaping condition holds.  The boolean result records whether
`palloc_free_page (prev)` was called. -/
def thread_schedule_tail (prev : Option Thread) (cur : Thread)
    (s : KernelState) : Option (Thread × KernelState × Bool) :=
  let c := { cur with status := ThreadStatus.RUNNING }
  let s2 := { s with thread_ticks := 0 }
  match prev with
  | none => some (c, s2, false)
  | some p =>
    if p.status = ThreadStatus.DYING ∧ p.tid ≠ s.initial_tid then
      if p.tid ≠ c.tid then some (c, s2, true) else none
    else some (c, s2, false)

/-- thread.c `init_thread` (record part): asserts the priority range and
non-null name, zeroes the record, sets it BLOCKED, copies at most 15 name
characters (`strlcpy` with a 16-byte buffer), sets the default wake-tick
sentinel and the magic canary.  The all-list push is done by the caller model
`thread_create`; the tid is filled in there as in the source. -/
def init_thread (nm : String) (priority : Int) : Option Thread :=
  if PRI_MIN ≤ priority ∧ priority ≤ PRI_MAX then
    some { tid := 0, status := ThreadStatus.BLOCKED, name := nm.take 15,
           priority := priority, wakeup_time_ticks := THREAD_NOT_SLEEPING,
           magic := THREAD_MAGIC, hasPagedir := false }
  else none

/-- thread.c `thread_create`.  `alloc_ok` is the outcome of
`palloc_get_page (PAL_ZERO)` (the page allocator is external): when it fails
the function returns `TID_ERROR` before touching any state.  On success:
`init_thread` (which appends the record to the all-threads registry),
`allocate_tid` (monotone counter under the tid lock), the three stack frames
(memory layout, not observable here), and `thread_unblock` onto the ready
queue. -/
def thread_create (nm : String) (priority : Int) (alloc_ok : Bool)
    (s : KernelState) : Option (Int × KernelState) :=
  if alloc_ok then
    match init_thread nm priority with
    | none => none
    | some t0 =>
      let tid := s.next_tid
      let t := { t0 with tid := tid }
      let s1 := { s with all_list := s.all_list ++ [tid],
                         next_tid := s.next_tid + 1 }
      match thread_unblock t s1 with
      | none => none
      | some s2 => some (tid, s2)
  else some (TID_ERROR, s)

/-- The sleeping-queue ordering: A wakes no later than B. -/
def wake_le (a b : Thread) : Prop :=
  a.wakeup_time_ticks ≤ b.wakeup_time_ticks

instance : DecidableRel wake_le := fun a b =>
  inferInstanceAs (Decidable (a.wakeup_time_ticks ≤ b.wakeup_time_ticks))

/-- A drained sleeper as `thread_wakeup` hands it to `thread_unblock`: wake
tick reset to the sentinel, status set to READY by the unblock. -/
def wakeThread (t : Thread) : Thread :=
  { t with status := ThreadStatus.READY,
           wakeup_time_ticks := THREAD_NOT_SLEEPING }

/-- A sleeper is due at tick `now` when its wake tick has been reached. -/
def isDue (now : Int) (t : Thread) : Bool :=
  decide (t.wakeup_time_ticks ≤ now)

/-- The sleeping-queue / min-cache pair invariant (spec I5 and I6): the queue
is sorted ascending by wake tick, the cache equals `SLEEPING_QUEUE_EMPTY` iff
the queue is empty, and otherwise equals the head's wake tick. -/
def SleepInv (sl : List Thread) (minw : Int) : Prop :=
  List.Pairwise wake_le sl ∧
  (minw = SLEEPING_QUEUE_EMPTY ↔ sl = []) ∧
  ∀ h rest, sl = h :: rest → minw = h.wakeup_time_ticks

/-- Well-formedness of a sleeping-queue entry, as asserted by the wakeup loop
and `thread_unblock`: BLOCKED status, positive wake tick (spec I5), intact
magic canary (spec I7). -/
def SleeperOk (t : Thread) : Prop :=
  t.status = ThreadStatus.BLOCKED ∧ 0 < t.wakeup_time_ticks ∧
  t.magic = THREAD_MAGIC

instance (t : Thread) : Decidable (SleeperOk t) :=
  inferInstanceAs (Decidable (t.status = ThreadStatus.BLOCKED
    ∧ 0 < t.wakeup_time_ticks ∧ t.magic = THREAD_MAGIC))

/-- A concrete running thread (the initial thread), used to instantiate
theorems with hypotheses at a concrete input. -/
def mainThread : Thread :=
  { tid := 1, status := ThreadStatus.RUNNING, name := "main", priority := 31,
    wakeup_time_ticks := THREAD_NOT_SLEEPING, magic := THREAD_MAGIC,
    hasPagedir := false }

/-- A concrete blocked thread, not sleeping. -/
def blockedThread : Thread :=
  { tid := 2, status := ThreadStatus.BLOCKED, name := "blk", priority := 31,
    wakeup_time_ticks := THREAD_NOT_SLEEPING, magic := THREAD_MAGIC,
    hasPagedir := false }

/-- A concrete sleeping-queue entry due to wake at tick 5. -/
def sleeperThread : Thread :=
  { tid := 3, status := ThreadStatus.BLOCKED, name := "slp", priority := 31,
    wakeup_time_ticks := 5, magic := THREAD_MAGIC, hasPagedir := false }

/-- A concrete RUNNING thread whose wake field does NOT hold the
`THREAD_NOT_SLEEPING` sentinel. -/
def staleThread : Thread :=
  { tid := 4, status := ThreadStatus.RUNNING, name := "stl", priority := 31,
    wakeup_time_ticks := 7, magic := THREAD_MAGIC, hasPagedir := false }

/-- A concrete DYING thread, distinct from the initial thread. -/
def dyingThread : Thread :=
  { tid := 5, status := ThreadStatus.DYING, name := "die", priority := 31,
    wakeup_time_ticks := THREAD_NOT_SLEEPING, magic := THREAD_MAGIC,
    hasPagedir := false }

/-- A concrete scheduler state with empty queues. -/
def emptyState : KernelState :=
  { ready_list := [], sleeping_list := [],
    sleeping_list_min_wakeup_time_ticks := SLEEPING_QUEUE_EMPTY,
    all_list := [1], next_tid := 2, idle_tid := 9, initial_tid := 1,
    thread_ticks := 0, idle_ticks := 0, kernel_ticks := 0, user_ticks := 0 }

/-- A concrete scheduler state with one sleeper due at tick 5. -/
def sleepState : KernelState :=
  { emptyState with sleeping_list := [sleeperThread],
                    sleeping_list_min_wakeup_time_ticks := 5 }

theorem mem_list_insert_ordered {a t : Thread} {l : List Thread} :
    a ∈ list_insert_ordered l t ↔ a ∈ l ∨ a = t := by
  induction l with
  | nil => simp [list_insert_ordered]
  | cons x xs ih =>
    by_cases hx : wakeup_time_ticks_less_than t x
    · simp only [list_insert_ordered, hx, if_true, List.mem_cons]
      tauto
    · simp only [list_insert_ordered, hx, if_false, Bool.false_eq_true,
        List.mem_cons, ih]
      tauto

theorem pairwise_list_insert_ordered {l : List Thread} {t : Thread}
    (h : List.Pairwise wake_le l) :
    List.Pairwise wake_le (list_insert_ordered l t) := by
  induction l with
  | nil => exact List.pairwise_singleton wake_le t
  | cons x xs ih =>
    obtain ⟨hx, hxs⟩ := List.pairwise_cons.mp h
    by_cases hlt : wakeup_time_ticks_less_than t x
    · have htx : t.wakeup_time_ticks < x.wakeup_time_ticks := by
        simpa [wakeup_time_ticks_less_than] using hlt
      simp only [list_insert_ordered, hlt, if_true]
      refine List.pairwise_cons.mpr ⟨?_, h⟩
      intro b hb
      rcases List.mem_cons.mp hb with rfl | hb
      · exact le_of_lt htx
      · exact le_trans (le_of_lt htx) (hx b hb)
    · have hxt : x.wakeup_time_ticks ≤ t.wakeup_time_ticks := by
        have := (Bool.not_eq_true _).symm ▸ hlt
        simpa [wakeup_time_ticks_less_than, not_lt] using hlt
      simp only [list_insert_ordered, hlt, if_false, Bool.false_eq_true]
      refine List.pairwise_cons.mpr ⟨?_, ih hxs⟩
      intro b hb
      rcases mem_list_insert_ordered.mp hb with hb | rfl
      · exact hx b hb
      · exact hxt

theorem dropWhile_not_due {now : Int} {l : List Thread}
    (h : List.Pairwise wake_le l) :
    ∀ t ∈ l.dropWhile (isDue now), now < t.wakeup_time_ticks := by
  induction l with
  | nil => intro t ht; simp at ht
  | cons x xs ih =>
    obtain ⟨hx, hxs⟩ := List.pairwise_cons.mp h
    by_cases hd : isDue now x
    · intro t ht
      rw [List.dropWhile_cons, if_pos hd] at ht
      exact ih hxs t ht
    · intro t ht
      have hnx : now < x.wakeup_time_ticks := by
        simpa [isDue, not_le] using hd
      rw [List.dropWhile_cons, if_neg hd] at ht
      rcases List.mem_cons.mp ht with rfl | htt
      · exact hnx
      · exact lt_of_lt_of_le hnx (hx t htt)

theorem wakeup_loop_eq (now : Int) (sl : List Thread) :
    ∀ (minw : Int) (rd : List Thread),
      List.Pairwise wake_le sl →
      (∀ t ∈ sl, SleeperOk t) →
      wakeup_loop now sl minw rd =
        some (sl.dropWhile (isDue now),
              (match sl.dropWhile (isDue now) with
               | [] => minw
               | h :: _ => h.wakeup_time_ticks),
              rd ++ (sl.takeWhile (isDue now)).map wakeThread) := by
  induction sl with
  | nil => intro minw rd _ _; simp [wakeup_loop]
  | cons ft rest ih =>
    intro minw rd hs hok
    obtain ⟨hb, hp, hm⟩ := hok ft (List.mem_cons_self ft rest)
    rw [wakeup_loop, if_pos ⟨hb, hp⟩]
    by_cases hdue : now < ft.wakeup_time_ticks
    · rw [if_pos hdue]
      have hnd : isDue now ft = false := by
        simp [isDue, not_le.mpr hdue]
      rw [List.dropWhile_cons, if_neg (by simp [hnd]),
          List.takeWhile_cons, if_neg (by simp [hnd])]
      simp
    · rw [if_neg hdue]
      have hun : thread_unblock_ready
          { ft with wakeup_time_ticks := THREAD_NOT_SLEEPING } rd
          = some (rd ++ [wakeThread ft]) := by
        simp [thread_unblock_ready, is_thread, hm, hb, wakeThread]
      rw [hun]
      have hd : isDue now ft = true := by
        simp [isDue, not_lt.mp hdue]
      show wakeup_loop now rest minw (rd ++ [wakeThread ft]) = _
      rw [ih minw (rd ++ [wakeThread ft]) (List.pairwise_cons.mp hs).2
            (fun t ht => hok t (List.mem_cons_of_mem ft ht)),
          List.dropWhile_cons, if_pos (by simp [hd]),
          List.takeWhile_cons, if_pos (by simp [hd])]
      simp

/-- C1: For every call to `thread_wakeup` on a state satisfying the
sleeping-queue/min-cache invariant with well-formed sleepers: the call
returns without tripping an assertion; on return no thread remaining in the
sleeping queue has `wakeup_time_ticks ≤ now` (the `timer_ticks()` value read
at the start of the sweep); every drained thread is appended to the ready
queue (unblocked, status READY) with its `wakeup_time_ticks` reset to
`THREAD_NOT_SLEEPING`; and the drained threads are the due prefix of the
sorted queue, unblocked in ascending wake-tick order. -/
theorem thread_wakeup_drains_due (now : Int) (s : KernelState)
    (hinv : SleepInv s.sleeping_list s.sleeping_list_min_wakeup_time_ticks)
    (hok : ∀ t ∈ s.sleeping_list, SleeperOk t) :
    ∃ s2, thread_wakeup now s = some s2 ∧
      s2.sleeping_list = s.sleeping_list.dropWhile (isDue now) ∧
      (∀ t ∈ s2.sleeping_list, now < t.wakeup_time_ticks) ∧
      s2.ready_list = s.ready_list
        ++ (s.sleeping_list.takeWhile (isDue now)).map wakeThread ∧
      List.Pairwise wake_le (s.sleeping_list.takeWhile (isDue now)) := by
  obtain ⟨hsort, hiff, hhead⟩ := hinv
  have hassert : s.sleeping_list_min_wakeup_time_ticks ≠ SLEEPING_QUEUE_EMPTY
      ∨ s.sleeping_list = [] := by
    by_cases h : s.sleeping_list_min_wakeup_time_ticks = SLEEPING_QUEUE_EMPTY
    · exact Or.inr (hiff.mp h)
    · exact Or.inl h
  have hpw : List.Pairwise wake_le (s.sleeping_list.takeWhile (isDue now)) :=
    hsort.sublist (List.takeWhile_sublist _)
  by_cases hfast : s.sleeping_list_min_wakeup_time_ticks = SLEEPING_QUEUE_EMPTY
      ∨ now < s.sleeping_list_min_wakeup_time_ticks
  · have hnil : s.sleeping_list.takeWhile (isDue now) = []
        ∧ s.sleeping_list.dropWhile (isDue now) = s.sleeping_list := by
      cases hsl : s.sleeping_list with
      | nil => simp
      | cons h rest =>
        rcases hfast with hemp | hnow
        · rw [hiff.mp hemp] at hsl; cases hsl
        · have hh := hhead h rest hsl
          have hd : ¬ isDue now h = true := by
            simp only [isDue, decide_eq_true_eq, not_le]
            rw [← hh]; exact hnow
          rw [List.takeWhile_cons, if_neg hd, List.dropWhile_cons, if_neg hd]
          exact ⟨rfl, rfl⟩
    refine ⟨s, ?_, hnil.2.symm, ?_, ?_, hpw⟩
    · rw [thread_wakeup, if_pos hassert, if_pos hfast]
    · intro t ht
      exact dropWhile_not_due hsort t (by rw [hnil.2]; exact ht)
    · rw [hnil.1]; simp
  · have hrun := wakeup_loop_eq now s.sleeping_list
      s.sleeping_list_min_wakeup_time_ticks s.ready_list hsort hok
    refine ⟨{ s with
        sleeping_list := s.sleeping_list.dropWhile (isDue now),
        sleeping_list_min_wakeup_time_ticks :=
          if s.sleeping_list.dropWhile (isDue now) = [] then
            SLEEPING_QUEUE_EMPTY
          else
            (match s.sleeping_list.dropWhile (isDue now) with
             | [] => s.sleeping_list_min_wakeup_time_ticks
             | h :: _ => h.wakeup_time_ticks),
        ready_list := s.ready_list
          ++ (s.sleeping_list.takeWhile (isDue now)).map wakeThread },
      ?_, rfl, fun t ht => dropWhile_not_due hsort t ht, rfl, hpw⟩
    rw [thread_wakeup, if_pos hassert, if_neg hfast, hrun]

/-- C1 witness: a concrete invocation at tick 10 with one sleeper due at
tick 5; the theorem applies and the sweep succeeds. -/
theorem thread_wakeup_drains_due_witness :
    ∃ s2, thread_wakeup 10 sleepState = some s2 := by
  obtain ⟨s2, h, -, -, -, -⟩ := thread_wakeup_drains_due 10 sleepState
    ⟨by decide, by decide,
     by intro h rest hh
        rw [show sleepState.sleeping_list = [sleeperThread] from rfl] at hh
        injection hh with h1 h2
        rw [← h1]
        rfl⟩
    (by decide)
  exact ⟨s2, h⟩

/-- C2: both operations that touch the (sleeping queue, min-cache) pair
preserve its invariant: `sleeping_queue_insert_ordered` of a well-formed
entry keeps the queue sorted ascending by wake tick with
`sleeping_list_min_wakeup_time_ticks` equal to `SLEEPING_QUEUE_EMPTY` iff the
queue is empty and otherwise equal to the head's wake tick; `thread_wakeup`'s
sweep does likewise. -/
theorem sleeping_invariants_preserved :
    (∀ (t : Thread) (sl : List Thread) (minw : Int) (p : List Thread × Int),
      SleepInv sl minw → SleeperOk t →
      sleeping_queue_insert_ordered t sl minw = some p →
      SleepInv p.1 p.2) ∧
    (∀ (now : Int) (s s2 : KernelState),
      SleepInv s.sleeping_list s.sleeping_list_min_wakeup_time_ticks →
      (∀ u ∈ s.sleeping_list, SleeperOk u) →
      thread_wakeup now s = some s2 →
      SleepInv s2.sleeping_list s2.sleeping_list_min_wakeup_time_ticks) := by
  constructor
  · rintro t sl minw p ⟨hsort, hiff, hhead⟩ ⟨hb, hp, -⟩ heq
    have hassert : minw ≠ SLEEPING_QUEUE_EMPTY ∨ sl = [] := by
      by_cases h : minw = SLEEPING_QUEUE_EMPTY
      · exact Or.inr (hiff.mp h)
      · exact Or.inl h
    rw [sleeping_queue_insert_ordered, if_pos ⟨hb, hp⟩, if_pos hassert] at heq
    by_cases hc : minw = SLEEPING_QUEUE_EMPTY ∨ t.wakeup_time_ticks ≤ minw
    · rw [if_pos hc] at heq
      obtain rfl : p = (t :: sl, t.wakeup_time_ticks) :=
        (Option.some.inj heq).symm
      refine ⟨?_, ?_, ?_⟩
      · refine List.pairwise_cons.mpr ⟨?_, hsort⟩
        intro b hb2
        rcases hc with hc | hc
        · rw [hiff.mp hc] at hb2; cases hb2
        · cases hsl : sl with
          | nil => rw [hsl] at hb2; cases hb2
          | cons h rest =>
            have hh := hhead h rest hsl
            rw [hsl] at hb2 hsort
            rcases List.mem_cons.mp hb2 with rfl | hb3
            · exact le_trans hc (le_of_eq hh)
            · exact le_trans (le_trans hc (le_of_eq hh))
                ((List.pairwise_cons.mp hsort).1 b hb3)
      · constructor
        · intro habs
          exfalso
          simp only [SLEEPING_QUEUE_EMPTY] at habs
          omega
        · intro habs; cases habs
      · intro h rest hh
        injection hh with h1 h2
        rw [← h1]
    · rw [if_neg hc] at heq
      obtain rfl : p = (list_insert_ordered sl t, minw) :=
        (Option.some.inj heq).symm
      push_neg at hc
      obtain ⟨hne, hlt⟩ := hc
      cases hsl : sl with
      | nil => exact absurd (hiff.mpr hsl) hne
      | cons h rest =>
        have hh := hhead h rest hsl
        have hstep : list_insert_ordered (h :: rest) t
            = h :: list_insert_ordered rest t := by
          rw [list_insert_ordered,
            if_neg (by simp only [wakeup_time_ticks_less_than,
              decide_eq_true_eq, not_lt]; rw [← hh]; exact le_of_lt hlt)]
        rw [hsl] at hsort
        refine ⟨pairwise_list_insert_ordered hsort, ?_, ?_⟩
        · constructor
          · intro habs; exact absurd habs hne
          · intro habs; rw [hstep] at habs; cases habs
        · intro h2 rest2 hh2
          rw [hstep] at hh2
          injection hh2 with h3 h4
          rw [← h3, hh]
  · intro now s s2 hinv hok heq
    obtain ⟨hsort, hiff, hhead⟩ := hinv
    have hassert : s.sleeping_list_min_wakeup_time_ticks ≠ SLEEPING_QUEUE_EMPTY
        ∨ s.sleeping_list = [] := by
      by_cases h : s.sleeping_list_min_wakeup_time_ticks = SLEEPING_QUEUE_EMPTY
      · exact Or.inr (hiff.mp h)
      · exact Or.inl h
    rw [thread_wakeup, if_pos hassert] at heq
    by_cases hfast : s.sleeping_list_min_wakeup_time_ticks = SLEEPING_QUEUE_EMPTY
        ∨ now < s.sleeping_list_min_wakeup_time_ticks
    · rw [if_pos hfast] at heq
      obtain rfl : s = s2 := Option.some.inj heq
      exact ⟨hsort, hiff, hhead⟩
    · rw [if_neg hfast, wakeup_loop_eq now s.sleeping_list
        s.sleeping_list_min_wakeup_time_ticks s.ready_list hsort hok] at heq
      obtain rfl : ({ s with
          sleeping_list := s.sleeping_list.dropWhile (isDue now),
          sleeping_list_min_wakeup_time_ticks :=
            if s.sleeping_list.dropWhile (isDue now) = [] then
              SLEEPING_QUEUE_EMPTY
            else
              (match s.sleeping_list.dropWhile (isDue now) with
               | [] => s.sleeping_list_min_wakeup_time_ticks
               | h :: _ => h.wakeup_time_ticks),
          ready_list := s.ready_list
            ++ (s.sleeping_list.takeWhile (isDue now)).map wakeThread }
          : KernelState) = s2 := Option.some.inj heq
      show SleepInv (s.sleeping_list.dropWhile (isDue now)) _
      cases hdw : s.sleeping_list.dropWhile (isDue now) with
      | nil =>
        simp only [hdw, if_pos]
        exact ⟨List.Pairwise.nil,
          Iff.intro (fun _ => rfl) (fun _ => rfl),
          fun h rest hh => by cases hh⟩
      | cons h rest =>
        have hmem : h ∈ s.sleeping_list :=
          (List.dropWhile_sublist (isDue now)).subset
            (by rw [hdw]; exact List.mem_cons_self h rest)
        have hpos : 0 < h.wakeup_time_ticks := (hok h hmem).2.1
        have hps : List.Pairwise wake_le (h :: rest) := by
          rw [← hdw]
          exact hsort.sublist (List.dropWhile_sublist (isDue now))
        simp only [hdw]
        rw [if_neg (by simp)]
        refine ⟨hps, ?_, ?_⟩
        · constructor
          · intro habs
            exfalso
            simp only [SLEEPING_QUEUE_EMPTY] at habs
            omega
          · intro habs; cases habs
        · intro h2 rest2 hh2
          injection hh2 with h3 h4
          rw [← h3]

/-- C2 witness: inserting the concrete sleeper into the empty queue with the
empty-sentinel cache yields a pair satisfying the invariant. -/
theorem sleeping_invariants_preserved_witness :
    SleepInv [sleeperThread] (5 : Int) :=
  sleeping_invariants_preserved.1 sleeperThread [] (-1) ([sleeperThread], 5)
    ⟨List.Pairwise.nil, Iff.intro (fun _ => rfl) (fun _ => rfl),
      fun h rest hh => by cases hh⟩
    ⟨rfl, by decide, rfl⟩
    (by decide)

theorem sleeping_queue_insert_ordered_some (t : Thread) (sl : List Thread)
    (minw : Int) (hb : t.status = ThreadStatus.BLOCKED)
    (hp : 0 < t.wakeup_time_ticks)
    (hassert : minw ≠ SLEEPING_QUEUE_EMPTY ∨ sl = []) :
    ∃ p, sleeping_queue_insert_ordered t sl minw = some p ∧
      ∀ a ∈ p.1, a ∈ sl ∨ a = t := by
  by_cases hc : minw = SLEEPING_QUEUE_EMPTY ∨ t.wakeup_time_ticks ≤ minw
  · refine ⟨(t :: sl, t.wakeup_time_ticks), ?_, ?_⟩
    · rw [sleeping_queue_insert_ordered, if_pos ⟨hb, hp⟩, if_pos hassert,
        if_pos hc]
    · intro a ha
      rcases List.mem_cons.mp ha with rfl | ha
      · exact Or.inr rfl
      · exact Or.inl ha
  · refine ⟨(list_insert_ordered sl t, minw), ?_, ?_⟩
    · rw [sleeping_queue_insert_ordered, if_pos ⟨hb, hp⟩, if_pos hassert,
        if_neg hc]
    · intro a ha
      exact mem_list_insert_ordered.mp ha

/-- C3 (amended): under the strengthened precondition `deadline > 0` — with a
valid running caller whose `wakeup_time_ticks` is `THREAD_NOT_SLEEPING` and
the sleeping-queue cache assertion invariant holding — `thread_sleep` never
trips an internal assertion: it returns immediately when `deadline < now()`,
and otherwise (unless the caller is the idle thread) inserts the caller into
the sleeping queue, every entry of the resulting queue satisfying the queue
invariant `wakeup_time_ticks > 0`.  (The claim's original precondition
`deadline ≥ 0` admits `deadline = 0`, which trips the insert's assertion when
`now() = 0`; see the counterexample.) -/
theorem thread_sleep_positive_deadline_safe (deadline now : Int)
    (cur : Thread) (s : KernelState)
    (hd : 0 < deadline)
    (hm : cur.magic = THREAD_MAGIC)
    (hr : cur.status = ThreadStatus.RUNNING)
    (hw : cur.wakeup_time_ticks = THREAD_NOT_SLEEPING)
    (hassert : s.sleeping_list_min_wakeup_time_ticks ≠ SLEEPING_QUEUE_EMPTY
      ∨ s.sleeping_list = [])
    (hpos : ∀ t ∈ s.sleeping_list, 0 < t.wakeup_time_ticks) :
    ∃ r, thread_sleep deadline now cur s = some r ∧
      (deadline < now → r = (cur, s)) ∧
      ∀ t ∈ r.2.sleeping_list, 0 < t.wakeup_time_ticks := by
  have hcur : thread_current cur = some cur := by
    rw [thread_current, if_pos]
    exact ⟨by simp [is_thread, hm], hr, hw⟩
  by_cases hlt : deadline < now
  · refine ⟨(cur, s), ?_, fun _ => rfl, hpos⟩
    rw [thread_sleep, if_pos (le_of_lt hd), if_pos hlt]
  · by_cases hidle : cur.tid = s.idle_tid
    · refine ⟨(cur, s), ?_, fun h => absurd h hlt, hpos⟩
      simp [thread_sleep, le_of_lt hd, hlt, hcur, hidle]
    · obtain ⟨p, hins, hmem⟩ := sleeping_queue_insert_ordered_some
        { cur with status := ThreadStatus.BLOCKED,
                   wakeup_time_ticks := deadline }
        s.sleeping_list s.sleeping_list_min_wakeup_time_ticks rfl hd hassert
      obtain ⟨sl2, mw2⟩ := p
      refine ⟨({ cur with status := ThreadStatus.BLOCKED,
                          wakeup_time_ticks := deadline },
        { s with sleeping_list := sl2,
                 sleeping_list_min_wakeup_time_ticks := mw2 }),
        ?_, fun h => absurd h hlt, ?_⟩
      · simp [thread_sleep, le_of_lt hd, hlt, hcur, hidle, hins]
      · intro t ht
        rcases hmem t ht with h | h
        · exact hpos t h
        · rw [h]; exact hd

/-- C3 (counterexample): at boot tick `timer_ticks() = 0`, a call
`thread_sleep(0)` satisfies every precondition the claim states —
`deadline ≥ 0`, caller valid and not sleeping, not the idle thread — yet the
early return does not fire (`0 < 0` is false) and the call halts on the
insert's `ASSERT (t->wakeup_time_ticks > 0)`. -/
theorem thread_sleep_assert_trips_at_zero :
    (0 : Int) ≤ 0 ∧
    mainThread.wakeup_time_ticks = THREAD_NOT_SLEEPING ∧
    mainThread.magic = THREAD_MAGIC ∧
    mainThread.status = ThreadStatus.RUNNING ∧
    mainThread.tid ≠ emptyState.idle_tid ∧
    thread_sleep 0 0 mainThread emptyState = none := by decide

/-- C3 witness: a positive deadline at boot tick 0 goes through: the caller
is inserted and the call completes without any assertion firing. -/
theorem thread_sleep_positive_deadline_safe_witness :
    (0 : Int) < 5 ∧
    ∃ r, thread_sleep 5 0 mainThread emptyState = some r := by
  refine ⟨by decide, ?_⟩
  obtain ⟨r, hr, -, -⟩ := thread_sleep_positive_deadline_safe 5 0 mainThread
    emptyState (by decide) rfl rfl rfl (Or.inr rfl) (by decide)
  exact ⟨r, hr⟩

/-- C4 (code bug): `threads_sleeping` disables interrupts on entry, but on
the empty-queue fast path (cache equal to `SLEEPING_QUEUE_EMPTY`) it returns
0 with the interrupt level still OFF — `false` here — instead of restoring
the caller's prior level `true`; the non-empty path does restore the prior
level.  This contradicts the claim that the prior level is restored on every
return path. -/
theorem threads_sleeping_fast_path_bug :
    emptyState.sleeping_list_min_wakeup_time_ticks = SLEEPING_QUEUE_EMPTY ∧
    (threads_sleeping emptyState true).2 = false ∧
    sleepState.sleeping_list_min_wakeup_time_ticks ≠ SLEEPING_QUEUE_EMPTY ∧
    (threads_sleeping sleepState true).2 = true := by decide

/-- C5: when page allocation fails inside `thread_create`, the call returns
`TID_ERROR` and the scheduler state — the all-threads registry, the ready
queue, the sleeping queue and its cache, and the tid counter — is returned
exactly as it was: no partial state is left behind. -/
theorem thread_create_alloc_failure_clean (nm : String) (priority : Int)
    (s : KernelState) :
    thread_create nm priority false s = some (TID_ERROR, s) := rfl

/-- C6: `thread_unblock(t)` demands `t.status = THREAD_BLOCKED` (a fatal
assertion — `none` — otherwise), and for a valid blocked thread appends `t`
to the BACK of the ready queue with status set to READY while changing no
other component of the scheduler state (the result is exactly a
ready-queue-only update), returning to its caller without scheduling or
preempting. -/
theorem thread_unblock_contract (t : Thread) (s : KernelState) :
    (t.status ≠ ThreadStatus.BLOCKED → thread_unblock t s = none) ∧
    (t.magic = THREAD_MAGIC → t.status = ThreadStatus.BLOCKED →
      thread_unblock t s = some { s with ready_list :=
        s.ready_list ++ [{ t with status := ThreadStatus.READY }] }) := by
  constructor
  · intro h
    simp [thread_unblock, thread_unblock_ready, h]
  · intro hm hb
    simp [thread_unblock, thread_unblock_ready, is_thread, hm, hb]

/-- C6 witness: unblocking the concrete blocked thread in the empty state
succeeds. -/
theorem thread_unblock_contract_witness :
    ∃ s2, thread_unblock blockedThread emptyState = some s2 :=
  ⟨_, (thread_unblock_contract blockedThread emptyState).2 rfl rfl⟩

/-- C7: executing `thread_unblock(t)` immediately followed by
`thread_yield()` in the current (non-idle, valid) thread makes `t` the next
thread the dispatcher pops if and only if the ready queue was empty before
the unblock: both operations append to the back of the FIFO and
`next_thread_to_run` pops the front. -/
theorem unblock_then_yield_fifo (t cur : Thread) (s : KernelState)
    (htm : t.magic = THREAD_MAGIC) (htb : t.status = ThreadStatus.BLOCKED)
    (hcur : thread_current cur = some cur) (hidle : cur.tid ≠ s.idle_tid)
    (hnotin : ∀ r ∈ s.ready_list, r.tid ≠ t.tid) :
    ∃ s1 c2 s2 nxt s3,
      thread_unblock t s = some s1 ∧
      thread_yield cur s1 = some (c2, s2) ∧
      next_thread_to_run s2 = (some nxt, s3) ∧
      (nxt.tid = t.tid ↔ s.ready_list = []) := by
  have h1 : thread_unblock t s = some { s with ready_list :=
      s.ready_list ++ [{ t with status := ThreadStatus.READY }] } := by
    simp [thread_unblock, thread_unblock_ready, is_thread, htm, htb]
  have h2 : thread_yield cur { s with ready_list :=
      s.ready_list ++ [{ t with status := ThreadStatus.READY }] }
      = some ({ cur with status := ThreadStatus.READY },
        { s with ready_list := (s.ready_list
          ++ [{ t with status := ThreadStatus.READY }])
          ++ [{ cur with status := ThreadStatus.READY }] }) := by
    simp [thread_yield, hcur, hidle]
  cases hsl : s.ready_list with
  | nil =>
    rw [show (s.ready_list ++ [{ t with status := ThreadStatus.READY }])
        ++ [{ cur with status := ThreadStatus.READY }]
        = [{ t with status := ThreadStatus.READY },
           { cur with status := ThreadStatus.READY }] from by
      rw [hsl]; rfl] at h2
    refine ⟨_, _, _, { t with status := ThreadStatus.READY }, _,
      h1, h2, rfl, ?_⟩
    exact Iff.intro (fun _ => rfl) (fun _ => rfl)
  | cons r rs =>
    rw [show (s.ready_list ++ [{ t with status := ThreadStatus.READY }])
        ++ [{ cur with status := ThreadStatus.READY }]
        = r :: ((rs ++ [{ t with status := ThreadStatus.READY }])
          ++ [{ cur with status := ThreadStatus.READY }]) from by
      rw [hsl, List.cons_append, List.cons_append]] at h2
    refine ⟨_, _, _, r, _, h1, h2, rfl, ?_⟩
    constructor
    · intro habs
      exact absurd habs
        (hnotin r (by rw [hsl]; exact List.mem_cons_self r rs))
    · intro habs
      cases habs

/-- C7 witness: with an empty ready queue, unblocking the concrete blocked
thread and yielding dispatches exactly that thread next. -/
theorem unblock_then_yield_fifo_witness :
    ∃ s1 c2 s2 nxt s3,
      thread_unblock blockedThread emptyState = some s1 ∧
      thread_yield mainThread s1 = some (c2, s2) ∧
      next_thread_to_run s2 = (some nxt, s3) ∧
      nxt.tid = blockedThread.tid := by
  obtain ⟨s1, c2, s2, nxt, s3, ha, hb, hc, hiff⟩ :=
    unblock_then_yield_fifo blockedThread mainThread emptyState rfl rfl
      (by decide) (by decide) (by intro r hr; cases hr)
  exact ⟨s1, c2, s2, nxt, s3, ha, hb, hc, hiff.mpr rfl⟩

/-- C8: every `thread_schedule_tail(prev)` invocation (with the asserted
`prev != cur` when reaping) sets the new current thread's status to RUNNING
and resets the per-slice tick counter to 0, and frees `prev`'s page if and
only if `prev` is non-null, `prev.status = DYING` and `prev` is not the
initial thread; consequently, over any sequence of invocations, a DYING
non-initial thread handed as `prev` to exactly one successor is freed
exactly once. -/
theorem thread_schedule_tail_contract (prev : Option Thread) (cur : Thread)
    (s : KernelState)
    (hne : ∀ p, prev = some p → p.tid ≠ cur.tid) :
    (∃ c s2 freed, thread_schedule_tail prev cur s = some (c, s2, freed) ∧
      c = { cur with status := ThreadStatus.RUNNING } ∧
      s2 = { s with thread_ticks := 0 } ∧
      freed = schedule_tail_frees s.initial_tid prev ∧
      (freed = true ↔ ∃ p, prev = some p ∧ p.status = ThreadStatus.DYING ∧
        p.tid ≠ s.initial_tid)) ∧
    (∀ (d : Thread) (invs : List (Option Thread)),
      d.status = ThreadStatus.DYING → d.tid ≠ s.initial_tid →
      invs.countP (fun q => decide (q = some d)) = 1 →
      invs.countP (fun q => decide (q = some d)
        && schedule_tail_frees s.initial_tid q) = 1) := by
  constructor
  · cases prev with
    | none =>
      refine ⟨_, _, false, rfl, rfl, rfl, rfl, ?_⟩
      constructor
      · intro h; cases h
      · rintro ⟨p, hp, -, -⟩; cases hp
    | some p =>
      by_cases hdy : p.status = ThreadStatus.DYING ∧ p.tid ≠ s.initial_tid
      · refine ⟨_, _, true, ?_, rfl, rfl, ?_, ?_⟩
        · simp only [thread_schedule_tail]
          rw [if_pos hdy, if_pos (hne p rfl)]
        · simp [schedule_tail_frees, hdy.1, hdy.2]
        · exact Iff.intro (fun _ => ⟨p, rfl, hdy.1, hdy.2⟩) (fun _ => rfl)
      · refine ⟨_, _, false, ?_, rfl, rfl, ?_, ?_⟩
        · simp only [thread_schedule_tail]
          rw [if_neg hdy]
        · have : ¬(decide (p.status = ThreadStatus.DYING)
              && decide (p.tid ≠ s.initial_tid)) = true := by
            simp only [Bool.and_eq_true, decide_eq_true_eq]
            exact fun hx => hdy ⟨hx.1, hx.2⟩
          simp only [schedule_tail_frees]
          exact (Bool.eq_false_iff.mpr this).symm
        · constructor
          · intro h; cases h
          · rintro ⟨p2, hp2, h3, h4⟩
            injection hp2 with h5
            rw [h5] at hdy
            exact absurd ⟨h3, h4⟩ hdy
  · intro d invs hdy hdi hcount
    have hpt : ∀ a : Option Thread,
        (decide (a = some d) && schedule_tail_frees s.initial_tid a)
          = decide (a = some d) := by
      intro a
      by_cases ha : a = some d
      · subst ha
        simp [schedule_tail_frees, hdy, hdi]
      · simp [ha]
    have hgen : ∀ l : List (Option Thread),
        l.countP (fun q => decide (q = some d)
          && schedule_tail_frees s.initial_tid q)
        = l.countP (fun q => decide (q = some d)) := by
      intro l
      induction l with
      | nil => rfl
      | cons a tl ih =>
        rw [List.countP_cons, List.countP_cons, ih, hpt a]
    rw [hgen invs, hcount]

/-- C8 witness: a concrete dispatch away from a DYING thread marks the new
thread RUNNING, resets the slice counter, and frees the dying thread's
page. -/
theorem thread_schedule_tail_contract_witness :
    ∃ c s2, thread_schedule_tail (some dyingThread) mainThread emptyState
      = some (c, s2, true) := by
  obtain ⟨⟨c, s2, freed, heq, -, -, -, hiff⟩, -⟩ :=
    thread_schedule_tail_contract (some dyingThread) mainThread emptyState
      (by intro p hp; injection hp with h; rw [← h]; decide)
  have : freed = true := hiff.mpr ⟨dyingThread, rfl, rfl, by decide⟩
  rw [this] at heq
  exact ⟨c, s2, heq⟩

/-- C9: each `thread_tick` call (for a valid running current thread)
increments exactly one of `idle_ticks`, `user_ticks`, `kernel_ticks`
according to whether the current thread is the idle thread, runs in a user
address space, or is a kernel thread; increments the per-slice counter
(unsigned 32-bit); and requests a yield at interrupt return — without
scheduling directly: ready and sleeping queues are untouched — if and only
if the incremented slice counter has reached `TIME_SLICE` = 4. -/
theorem thread_tick_contract (cur : Thread) (s : KernelState)
    (hcur : thread_current cur = some cur) :
    ∃ s2 y, thread_tick cur s = some (s2, y) ∧
      s2.thread_ticks = (s.thread_ticks + 1) % 2 ^ 32 ∧
      (y = true ↔ TIME_SLICE ≤ (s.thread_ticks + 1) % 2 ^ 32) ∧
      (cur.tid = s.idle_tid →
        s2.idle_ticks = s.idle_ticks + 1 ∧ s2.user_ticks = s.user_ticks ∧
        s2.kernel_ticks = s.kernel_ticks) ∧
      (cur.tid ≠ s.idle_tid → cur.hasPagedir = true →
        s2.user_ticks = s.user_ticks + 1 ∧ s2.idle_ticks = s.idle_ticks ∧
        s2.kernel_ticks = s.kernel_ticks) ∧
      (cur.tid ≠ s.idle_tid → cur.hasPagedir = false →
        s2.kernel_ticks = s.kernel_ticks + 1 ∧ s2.idle_ticks = s.idle_ticks ∧
        s2.user_ticks = s.user_ticks) ∧
      s2.ready_list = s.ready_list ∧
      s2.sleeping_list = s.sleeping_list ∧
      s2.sleeping_list_min_wakeup_time_ticks
        = s.sleeping_list_min_wakeup_time_ticks := by
  by_cases h1 : cur.tid = s.idle_tid
  · refine ⟨{ s with
        idle_ticks := s.idle_ticks + 1,
        thread_ticks := (s.thread_ticks + 1) % 2 ^ 32 },
      decide (TIME_SLICE ≤ (s.thread_ticks + 1) % 2 ^ 32),
      ?_, rfl, by simp, fun _ => ⟨rfl, rfl, rfl⟩,
      fun hx _ => absurd h1 hx, fun hx _ => absurd h1 hx, rfl, rfl, rfl⟩
    simp [thread_tick, hcur, h1]
  · by_cases h2 : cur.hasPagedir
    · refine ⟨{ s with
          user_ticks := s.user_ticks + 1,
          thread_ticks := (s.thread_ticks + 1) % 2 ^ 32 },
        decide (TIME_SLICE ≤ (s.thread_ticks + 1) % 2 ^ 32),
        ?_, rfl, by simp, fun hx => absurd hx h1,
        fun _ _ => ⟨rfl, rfl, rfl⟩,
        (fun _ hx => by rw [h2] at hx; cases hx), rfl, rfl, rfl⟩
      simp [thread_tick, hcur, h1, h2]
    · refine ⟨{ s with
          kernel_ticks := s.kernel_ticks + 1,
          thread_ticks := (s.thread_ticks + 1) % 2 ^ 32 },
        decide (TIME_SLICE ≤ (s.thread_ticks + 1) % 2 ^ 32),
        ?_, rfl, by simp, fun hx => absurd hx h1,
        fun _ hx => absurd hx h2,
        fun _ _ => ⟨rfl, rfl, rfl⟩, rfl, rfl, rfl⟩
      simp [thread_tick, hcur, h1, h2]

/-- C9 witness: a concrete tick for the running main thread succeeds. -/
theorem thread_tick_contract_witness :
    ∃ s2 y, thread_tick mainThread emptyState = some (s2, y) := by
  obtain ⟨s2, y, heq, -, -, -, -, -, -, -, -⟩ :=
    thread_tick_contract mainThread emptyState (by decide)
  exact ⟨s2, y, heq⟩

/-- C10 (amended): `thread_current()` asserts — beyond the magic-canary and
RUNNING-status checks — that the running thread's `wakeup_time_ticks` equals
`THREAD_NOT_SLEEPING`; hence `thread_tid`, `thread_name`,
`thread_get_priority`, `thread_set_priority`, `thread_yield` and
`thread_tick` halt with a fatal assertion whenever the running thread's wake
field is not the sentinel, and `thread_sleep` does too on every path that
reaches `thread_current()` — i.e. except the early return it takes when
`deadline < now()`. -/
theorem thread_current_wake_sentinel (t : Thread) (s : KernelState)
    (p deadline now : Int)
    (h : t.wakeup_time_ticks ≠ THREAD_NOT_SLEEPING) :
    thread_current t = none ∧ thread_tid t = none ∧ thread_name t = none ∧
    thread_get_priority t = none ∧ thread_set_priority t p = none ∧
    thread_yield t s = none ∧ thread_tick t s = none ∧
    (0 ≤ deadline → ¬ deadline < now →
      thread_sleep deadline now t s = none) := by
  have hc : thread_current t = none := by
    rw [thread_current, if_neg]
    rintro ⟨-, -, hw⟩
    exact h hw
  refine ⟨hc, ?_, ?_, ?_, ?_, ?_, ?_, ?_⟩
  · simp [thread_tid, hc]
  · simp [thread_name, hc]
  · simp [thread_get_priority, hc]
  · simp [thread_set_priority, hc]
  · simp [thread_yield, hc]
  · simp [thread_tick, hc]
  · intro ha hb
    simp [thread_sleep, ha, hb, hc]

/-- C10 witness: a RUNNING thread with an intact canary but a stale wake
field (7 instead of the sentinel) makes `thread_current` halt. -/
theorem thread_current_wake_sentinel_witness :
    staleThread.wakeup_time_ticks ≠ THREAD_NOT_SLEEPING ∧
    thread_current staleThread = none :=
  ⟨by decide,
   (thread_current_wake_sentinel staleThread emptyState 0 0 0 (by decide)).1⟩

/-- C10 (counterexample): the claim lists `thread_sleep` among the public
operations that halt unless the running thread's wake field holds the
sentinel, but `thread_sleep` checks `deadline < timer_ticks()` BEFORE calling
`thread_current()`: with a stale wake field (7) and `deadline = 0 < now = 5`
it returns normally instead of halting. -/
theorem thread_sleep_early_return_no_assert :
    staleThread.wakeup_time_ticks ≠ THREAD_NOT_SLEEPING ∧
    thread_sleep 0 5 staleThread emptyState
      = some (staleThread, emptyState) := by decide

end PintosThread
